import Mathlib

/-!
Shallow embedding of the profinesser repository (DataTypes.py, BaseStorage.py,
FacultyAgent.py, agent2_analyst.py) and proofs about its specified behaviour.

String handling: Python string operations are modelled over the underlying
character lists (`String.data`), with `Char.toLower` modelling `str.lower()`
(exact on the ASCII inputs that occur in this code base) and an explicit
infix check modelling Python's `in` operator on strings.
-/

/-- Boolean prefix test on character lists: models matching a needle at the
current position of a Python substring scan. -/
def prefixB : List Char → List Char → Bool
  | [], _ => true
  | _ :: _, [] => false
  | a :: as, b :: bs => decide (a = b) && prefixB as bs

/-- Boolean infix test on character lists: models the Python expression
`needle in haystack` on strings (substring containment). -/
def infixB (n : List Char) : List Char → Bool
  | [] => prefixB n []
  | c :: cs => prefixB n (c :: cs) || infixB n cs

/-- Lowercase the characters of a string, modelling Python `str.lower()`. -/
def lowerS (s : String) : String := ⟨s.data.map Char.toLower⟩

/-- Boolean substring test on strings, modelling Python `needle in hay`. -/
def substrB (needle hay : String) : Bool := infixB needle.data hay.data

/-- First `n` characters of a string, modelling Python slicing `s[:n]`. -/
def takeStr (s : String) (n : Nat) : String := ⟨s.data.take n⟩

/-- Insert an element into a list that is sorted descending by `key`, placing
it before the first element whose key is not larger.  This is the insertion
step of a stable descending sort. -/
def insertDescBy {α β : Type} [LinearOrder β] (key : α → β) (a : α) : List α → List α
  | [] => [a]
  | b :: bs => if key b ≤ key a then a :: b :: bs else b :: insertDescBy key a bs

/-- Stable sort, descending by `key`: models Python
`sorted(l, key=key, reverse=True)` (Timsort is stable, and with
`reverse=True` elements with equal keys keep their original order). -/
def sortDescBy {α β : Type} [LinearOrder β] (key : α → β) : List α → List α
  | [] => []
  | a :: as => insertDescBy key a (sortDescBy key as)

/-! Data model (DataTypes.py) and the OpenAlex response shapes consumed by
FacultyAgent.py.  Fields read with Python `dict.get` (which may yield `None`)
are modelled as `Option`; fields read with mandatory indexing are plain. -/

/-- Faculty record (dataclass `Faculty` in DataTypes.py).  `name`, `specialty`
and `top_paper` are `Option String` because the discovery pipeline fills them
from `dict.get` calls that can produce `None`. -/
structure Faculty where
  name : Option String
  id : String
  h_index : Int
  specialty : Option String
  top_paper : Option String
  last_known_institution : String
  deriving DecidableEq, Repr

/-- One entry of the institutions search response: the code reads
`results[0]['id']` and `results[0]['display_name']` unconditionally. -/
structure Institution where
  id : String
  display_name : String
  deriving DecidableEq, Repr

/-- An institution reference inside an authorship or an author profile; the
code reads `inst.get('id')`. -/
structure InstRef where
  id : Option String
  deriving DecidableEq, Repr

/-- One authorship of a work: `authorship.get('author', {}).get('id')` and
`authorship.get('institutions', [])`. -/
structure Authorship where
  author_id : Option String
  institutions : List InstRef
  deriving DecidableEq, Repr

/-- One work of the works search response: `work.get('title')` and
`work.get('authorships', [])`. -/
structure Work where
  title : Option String
  authorships : List Authorship
  deriving DecidableEq, Repr

/-- One topic of an author profile: `t.get('display_name')` and
`t.get('field', {}).get('display_name')`. -/
structure Topic where
  display_name : Option String
  field_display_name : Option String
  deriving DecidableEq, Repr

/-- One author of the authors lookup response.  `h_index` models
`(author.get('summary_stats') or {}).get('h_index', 0)` being present;
`topics` and `last_known_institutions` model `author.get(...) or []`. -/
structure Author where
  id : Option String
  display_name : Option String
  h_index : Option Int
  topics : Option (List Topic)
  last_known_institutions : Option (List InstRef)
  deriving DecidableEq, Repr

/-- The external OpenAlex endpoints consumed by `get_experts`, modelled as
pure response functions: institutions search by school name, works search by
(resolved school id, skill keyword), authors lookup by the pipe-joined batch
filter string. -/
structure OpenAlexAPI where
  institutions : String → List Institution
  works : String → String → List Work
  authors : String → List Author

/-- Result of one `get_experts` call: the returned list, the number of
external `requests.get` calls made, and the list of `save_faculty` calls (each
with its argument) issued to storage. -/
structure DiscoverResult where
  results : List Faculty
  externalCalls : Nat
  saves : List (List Faculty)
  deriving DecidableEq, Repr

/-- The cache filter of step 1 of `get_experts`:
`[f for f in cached if school_name.lower() in f.last_known_institution.lower()]`. -/
def schoolMatches (cached : List Faculty) (school_name : String) : List Faculty :=
  cached.filter (fun f => substrB (lowerS school_name) (lowerS f.last_known_institution))

/-- Ordered-dict upsert, modelling `potential_map[auth_id] = work.get('title')`
on a Python dict: an existing key keeps its position and gets the new value, a
new key is appended. -/
def upsertPM (k : String) (v : Option String) :
    List (String × Option String) → List (String × Option String)
  | [] => [(k, v)]
  | p :: ps => if p.1 = k then (k, v) :: ps else p :: upsertPM k v ps

/-- Processing of one authorship in step 3 of `get_experts` (with `t` the
title of the enclosing work): if the authorship is affiliated with the
resolved school and its author id is truthy (present and non-empty), record
the title under that id. -/
def pmAuth (school_id : String) (t : Option String)
    (m : List (String × Option String)) (a : Authorship) :
    List (String × Option String) :=
  if a.institutions.any (fun i => decide (i.id = some school_id)) then
    match a.author_id with
    | some aid => if aid = "" then m else upsertPM aid t m
    | none => m
  else m

/-- Processing of one work in step 3 of `get_experts`: fold `pmAuth` over its
authorships. -/
def pmStep (school_id : String) (m : List (String × Option String)) (w : Work) :
    List (String × Option String) :=
  w.authorships.foldl (pmAuth school_id w.title) m

/-- The `potential_map` built in step 3 of `get_experts` from the works
response. -/
def potentialMap (school_id : String) (works : List Work) :
    List (String × Option String) :=
  works.foldl (pmStep school_id) []

/-- The candidate author ids, in the key order of `potential_map`. -/
def authIds (pm : List (String × Option String)) : List String := pm.map (fun p => p.1)

/-- Concatenated authors responses for the batches of 50 candidate ids
(`"|".join(auth_ids[i:i+50])` per batch). -/
def fetchedAuthors (api : OpenAlexAPI) (ids : List String) : List Author :=
  ((List.toChunks 50 ids).map (fun c => api.authors (String.intercalate "|" c))).flatten

/-- Verification and record construction for one hydrated author (step 4 of
`get_experts`): requires the author id to be present and in `potential_map`,
the last known institutions to contain the resolved school id, and one of the
first three topics to have field display name "Computer Science". -/
def verifyAuthor (school_id school_display : String)
    (pm : List (String × Option String)) (a : Author) : Option Faculty :=
  let last_insts := a.last_known_institutions.getD []
  let is_at_school := last_insts.any (fun i => decide (i.id = some school_id))
  let tps := a.topics.getD []
  let is_cs := (tps.take 3).any (fun t => decide (t.field_display_name = some "Computer Science"))
  match a.id with
  | none => none
  | some aid =>
    match List.lookup aid pm with
    | none => none
    | some title =>
      if is_at_school && is_cs then
        some { name := a.display_name
               id := aid
               h_index := a.h_index.getD 0
               specialty := match tps with
                            | [] => some "AI"
                            | t :: _ => t.display_name
               top_paper := title
               last_known_institution := school_display }
      else none

/-- The verified faculty list built on the cache-miss path, before sorting
(empty when the institutions search returns no results). -/
def verifiedList (api : OpenAlexAPI) (school_name skill_keyword : String) : List Faculty :=
  match api.institutions school_name with
  | [] => []
  | inst :: _ =>
    let pm := potentialMap inst.id (api.works inst.id skill_keyword)
    (fetchedAuthors api (authIds pm)).filterMap (verifyAuthor inst.id inst.display_name pm)

/-- The cache-miss path of `get_experts` (institution resolution, works
search, author hydration, verification, sort, persist, truncate). -/
def missPath (api : OpenAlexAPI) (school_name skill_keyword : String) (limit : Nat) :
    DiscoverResult :=
  match api.institutions school_name with
  | [] => { results := [], externalCalls := 1, saves := [] }
  | inst :: _ =>
    let pm := potentialMap inst.id (api.works inst.id skill_keyword)
    let verified := (fetchedAuthors api (authIds pm)).filterMap
      (verifyAuthor inst.id inst.display_name pm)
    let final := sortDescBy (fun f => f.h_index) verified
    { results := final.take limit
      externalCalls := 2 + (List.toChunks 50 (authIds pm)).length
      saves := [final] }

/-- FacultyAgent.get_experts, as a pure function of the storage cache contents
(the `search_cache(skill_keyword)` response) and the external API responses.
The cache-hit condition mirrors the nested `if cached:` /
`if school_matches:` tests of the source. -/
def get_experts (api : OpenAlexAPI) (cached : List Faculty)
    (school_name skill_keyword : String) (limit : Nat) : DiscoverResult :=
  if cached.isEmpty = false ∧ (schoolMatches cached school_name).isEmpty = false then
    { results := (sortDescBy (fun f => f.h_index) (schoolMatches cached school_name)).take limit
      externalCalls := 0
      saves := [] }
  else missPath api school_name skill_keyword limit

/-- The list `get_experts` sorts before truncating to `limit`, on each of the
three paths (cache hit, no institution found, full pipeline). -/
def preSortList (api : OpenAlexAPI) (cached : List Faculty)
    (school_name skill_keyword : String) : List Faculty :=
  if cached.isEmpty = false ∧ (schoolMatches cached school_name).isEmpty = false then
    schoolMatches cached school_name
  else verifiedList api school_name skill_keyword

/-! Record Store (BaseStorage.py, class SQLiteStorage).  The SQL statements
are embedded with modelled SQLite semantics: the `faculty` table keeps an
implicit integer rowid per row (`id TEXT PRIMARY KEY` is not an alias of
rowid), `INSERT OR REPLACE` deletes the conflicting row and inserts a fresh
row whose rowid is max(existing)+1, and a comparison between a TEXT value and
an INTEGER value applies numeric affinity to the text: the two are equal only
if the text parses as that integer.  The FTS5 engine is modelled by a
unicode-style tokenizer (maximal alphanumeric runs, lowercased) and a MATCH
that requires every keyword token to occur among the indexed tokens. -/

/-- One row of the `faculty_search` FTS5 index: the three indexed text
columns written by `save_faculty` (`name`, `specialty`, `paper`). -/
structure IndexEntry where
  name : Option String
  specialty : Option String
  paper : Option String
  deriving DecidableEq, Repr

/-- The index entry that `save_faculty` writes for a record. -/
def indexEntry (f : Faculty) : IndexEntry :=
  { name := f.name, specialty := f.specialty, paper := f.top_paper }

/-- State of the SQLite database: the `faculty` table (rowid, row) and the
`faculty_search` index (rowid, indexed columns), in insertion order. -/
structure StoreState where
  facultyRows : List (Int × Faculty)
  searchRows : List (Int × IndexEntry)
  deriving DecidableEq, Repr

/-- The empty database, as created by `_create_tables` on first run. -/
def emptyStore : StoreState := { facultyRows := [], searchRows := [] }

/-- Largest rowid currently in the `faculty` table (0 when empty): SQLite
assigns max+1 to a row inserted without an explicit rowid. -/
def rowidMax (rows : List (Int × Faculty)) : Int :=
  rows.foldl (fun m r => max m r.1) 0

/-- Accumulate the maximal alphanumeric runs of a character list, lowercased:
the unicode61 tokenizer of FTS5 restricted to the ASCII data in this model. -/
def tokensAux : List Char → List Char → List (List Char)
  | [], acc => if acc.isEmpty then [] else [acc.reverse]
  | c :: cs, acc =>
    if c.isAlphanum then tokensAux cs (c.toLower :: acc)
    else if acc.isEmpty then tokensAux cs acc
    else acc.reverse :: tokensAux cs []

/-- FTS5 tokens of a string. -/
def ftsTokens (s : String) : List (List Char) := tokensAux s.data []

/-- Modelled FTS5 MATCH of a keyword query against one index row: the query
must tokenize to something, and every query token must occur among the tokens
of the indexed columns (a NULL column contributes no tokens). -/
def ftsMatch (keyword : String) (e : IndexEntry) : Bool :=
  let entryTokens := ftsTokens (e.name.getD "") ++ ftsTokens (e.specialty.getD "") ++
    ftsTokens (e.paper.getD "")
  !(ftsTokens keyword).isEmpty && (ftsTokens keyword).all (fun t => entryTokens.contains t)

/-- Parse a TEXT value as a SQLite integer (optional sign, decimal digits):
the numeric-affinity conversion applied when TEXT is compared with INTEGER. -/
def sqlTextToInt (s : String) : Option Int :=
  let digitsVal : List Char → Option Nat := fun l =>
    if l.isEmpty then none
    else if l.all Char.isDigit then
      some (l.foldl (fun n c => 10 * n + (c.toNat - 48)) 0)
    else none
  match s.data with
  | '-' :: rest => (digitsVal rest).map (fun n => -(n : Int))
  | l => (digitsVal l).map (fun n => (n : Int))

/-- SQLite equality of a TEXT-affinity value against an INTEGER value (the
join condition `f.id = fs.rowid`): numeric affinity is applied to the text;
non-numeric text is never equal to an integer. -/
def sqliteEqIdRowid (id : String) (rid : Int) : Bool :=
  match sqlTextToInt id with
  | some n => decide (n = rid)
  | none => false

/-- Effect of one loop iteration of `save_faculty`: `INSERT OR REPLACE` into
`faculty` (delete any row with the same id, insert with a fresh rowid), then
`INSERT OR REPLACE` into `faculty_search` keyed by
`(SELECT rowid FROM faculty WHERE id=?)`, which is that fresh rowid. -/
def saveOne (st : StoreState) (f : Faculty) : StoreState :=
  let remaining := st.facultyRows.filter (fun r => !decide (r.2.id = f.id))
  let rid := rowidMax remaining + 1
  { facultyRows := remaining ++ [(rid, f)]
    searchRows := st.searchRows.filter (fun r => !decide (r.1 = rid)) ++ [(rid, indexEntry f)] }

/-- BaseStorage.save_faculty: upsert every record of the list, in order. -/
def save_faculty (st : StoreState) (faculty_list : List Faculty) : StoreState :=
  faculty_list.foldl saveOne st

/-- BaseStorage.search_cache: the join
`faculty f JOIN faculty_search fs ON f.id = fs.rowid WHERE faculty_search MATCH ?`,
returning the decoded `data_json` column (the record itself, since
`json.dumps(asdict(f))` round-trips). -/
def search_cache (st : StoreState) (keyword : String) : List Faculty :=
  (st.facultyRows.filter (fun fr =>
    st.searchRows.any (fun sr => sqliteEqIdRowid fr.2.id sr.1 && ftsMatch keyword sr.2))).map
    (fun fr => fr.2)

/-! Paper Relevance Ranker (agent2_analyst.py, class ResearchAnalystAgent).
Scores are exact rationals: every quantity the code computes on floats here
(integer keyword counts, `citationCount / 100.0`, `min(_, 2.0)`, `round(_, 2)`)
is a two-decimal value below 203, on which double arithmetic is exact enough
that float and rational results coincide. -/

/-- One paper of the Semantic Scholar response.  `title` and `url` are read
with mandatory indexing (`paper['title']`, `paper['url']`); `abstract`,
`year` and `citationCount` are read with `dict.get`. -/
structure Paper where
  title : String
  abstract : Option String
  year : Option Int
  citationCount : Option Nat
  url : String
  deriving DecidableEq, Repr

/-- One scored paper as appended to `ranked` by `_rank_papers`. -/
structure PaperScore where
  title : String
  year : Int
  url : String
  relevance_score : ℚ
  matched_keywords : List String
  abstract_snippet : String
  deriving DecidableEq, Repr

/-- Addition on `ℚ` by the textbook fraction formula.  `Rat.add` is marked
irreducible upstream, which blocks kernel evaluation; this definition reduces
and `addQ_eq` identifies it with `+`. -/
def addQ (a b : ℚ) : ℚ := Rat.divInt (a.num * b.den + b.num * a.den) (a.den * b.den)

/-- Multiplication on `ℚ` by the textbook fraction formula; `mulQ_eq`
identifies it with `*`. -/
def mulQ (a b : ℚ) : ℚ := Rat.divInt (a.num * b.num) (a.den * b.den)

/-- Python `min(a, b)`: `a` when `a <= b`, else `b` (agrees with `min`). -/
def minQ (a b : ℚ) : ℚ := if a ≤ b then a else b

/-- Python `round(x, 2)` on the exact value: round `x * 100` to an integer
and divide by 100.  All values this model rounds satisfy `x * 100 ∈ ℤ`
exactly, so the tie-breaking rule (Python rounds half to even, this rounds
half up) never comes into play and the result is `x` itself (see
`round2_eq_self`). -/
def round2 (q : ℚ) : ℚ :=
  Rat.divInt (Rat.floor (addQ (mulQ q 100) (Rat.divInt 1 2))) 100

/-- The keyword set `set([k.lower() for k in interests + skills])`, as a
duplicate-free list (Python set iteration order is unspecified; this model
fixes first-occurrence order, and every stated property of the matched
keywords is order-insensitive). -/
def targetKeywords (interests skills : List String) : List String :=
  ((interests ++ skills).map lowerS).dedup

/-- The lowercased scoring text `(paper['title'] + " ") * 2 + paper['abstract']`. -/
def scoringText (title ab : String) : String :=
  lowerS ((title ++ " ") ++ ((title ++ " ") ++ ab))

/-- The keywords of `kws` found as substrings of the scoring text: the
`matches` list accumulated by the scoring loop of `_rank_papers`. -/
def matchedKeywords (kws : List String) (title ab : String) : List String :=
  kws.filter (fun k => substrB k (scoringText title ab))

/-- The citation bonus `min(citationCount / 100.0, 2.0)`. -/
def citationBoost (c : Nat) : ℚ := minQ (Rat.divInt c 100) 2

/-- One iteration of the `_rank_papers` loop: `none` when the paper is
filtered out (missing or empty abstract, missing year, year < 2018) or its
final score is not strictly positive, otherwise the scored entry. -/
def scoreOne (kws : List String) (p : Paper) : Option PaperScore :=
  match p.abstract, p.year with
  | some ab, some y =>
    if ab = "" then none
    else if y < 2018 then none
    else
      let matched := matchedKeywords kws p.title ab
      let citation_boost : ℚ := citationBoost (p.citationCount.getD 0)
      let final_score : ℚ := addQ (matched.length : ℚ) citation_boost
      if 0 < final_score then
        some { title := p.title
               year := y
               url := p.url
               relevance_score := round2 final_score
               matched_keywords := matched
               abstract_snippet := takeStr ab 200 ++ "..." }
      else none
  | _, _ => none

/-- ResearchAnalystAgent._rank_papers: filter, score, and stably sort
descending by relevance score. -/
def rank_papers (papers : List Paper) (interests skills : List String) : List PaperScore :=
  sortDescBy (fun e => e.relevance_score)
    (papers.filterMap (scoreOne (targetKeywords interests skills)))

/-- Outcome of the papers request in `_fetch_papers`: a successful response
body (its `data` field, possibly empty), or a `requests` transport/HTTP
exception. -/
inductive FetchOutcome
  | ok (papers : List Paper)
  | failed
  deriving DecidableEq, Repr

/-- ResearchAnalystAgent._fetch_papers: the exception handler turns a
transport failure into an empty list. -/
def fetchPapersResult : FetchOutcome → List Paper
  | .ok ps => ps
  | .failed => []

/-- The success payload built by `run` for Agent 3. -/
structure RunPayload where
  professor_name : String
  analysis_timestamp : String
  skills : List String
  interests : List String
  recommended_papers : List PaperScore
  deriving DecidableEq, Repr

/-- Result of `run`: the error dict or the output payload. -/
inductive RunResult
  | error (msg : String)
  | payload (p : RunPayload)
  deriving DecidableEq, Repr

/-- The recommended papers of a run result (empty for the error dict). -/
def recommendedOf : RunResult → List PaperScore
  | .error _ => []
  | .payload p => p.recommended_papers

/-- ResearchAnalystAgent.run, as a pure function of the fetch outcome, the
input dict fields, and the current time. -/
def run (fetched : FetchOutcome) (professor_name : Option String) (now : String)
    (student_interests student_skills : List String) : RunResult :=
  let raw_papers := fetchPapersResult fetched
  if raw_papers.isEmpty then .error "No papers found or API error."
  else
    let scored_papers := rank_papers raw_papers student_interests student_skills
    .payload { professor_name := professor_name.getD "Unknown"
               analysis_timestamp := now
               skills := student_skills
               interests := student_interests
               recommended_papers := scored_papers.take 3 }

/-- A work qualifies for author id `aid` (relative to the resolved school id)
when one of its authorships is affiliated with the school and names `aid` as
the author: exactly the condition under which the `potential_map` loop writes
an entry for `aid` while processing that work. -/
def qualifiesFor (school_id aid : String) (w : Work) : Bool :=
  w.authorships.any (fun a =>
    a.institutions.any (fun i => decide (i.id = some school_id)) &&
      decide (a.author_id = some aid))

/-- The titles of the works qualifying for `aid`, in works-response order. -/
def titlesFor (school_id aid : String) (works : List Work) : List (Option String) :=
  (works.filter (qualifiesFor school_id aid)).map (fun w => w.title)

/-! Concrete inputs used by the witness and counterexample theorems. -/

/-- Two works by the same author at the same school, with different titles. -/
def workT1 : Work :=
  { title := some "Title1"
    authorships := [{ author_id := some "A1", institutions := [{ id := some "I1" }] }] }

/-- Second work of the same author; its title is what `potential_map` ends up
holding. -/
def workT2 : Work :=
  { title := some "Title2"
    authorships := [{ author_id := some "A1", institutions := [{ id := some "I1" }] }] }

/-- A faculty record with a realistic OpenAlex id (a URL, hence not numeric). -/
def aliceW : Faculty :=
  { name := some "Alice Smith"
    id := "https://openalex.org/A1"
    h_index := 10
    specialty := some "Deep Learning"
    top_paper := some "GNN Paper"
    last_known_institution := "UCLA" }

/-- A cached faculty record whose institution contains the school name. -/
def cachedFacW : Faculty :=
  { name := some "Cached Expert"
    id := "https://openalex.org/A9"
    h_index := 100
    specialty := some "CS"
    top_paper := some "Old Paper"
    last_known_institution := "UCLA" }

/-- The hydrated author returned by the modelled authors endpoint. -/
def authorW : Author :=
  { id := some "A1"
    display_name := some "Dr. Graph"
    h_index := some 42
    topics := some [{ display_name := some "Deep Learning"
                      field_display_name := some "Computer Science" }]
    last_known_institutions := some [{ id := some "I1" }] }

/-- A hydrated author outside Computer Science (dropped by verification). -/
def authorChemW : Author :=
  { id := some "A2"
    display_name := some "Dr. Chemistry"
    h_index := some 10
    topics := some [{ display_name := some "Molecules"
                      field_display_name := some "Chemistry" }]
    last_known_institutions := some [{ id := some "I1" }] }

/-- A small concrete OpenAlex API: one institution, one qualifying work with
two authors, and an authors endpoint answering the generated batch query. -/
def apiW : OpenAlexAPI :=
  { institutions := fun s => if s = "UCLA" then [{ id := "I1", display_name := "UCLA" }] else []
    works := fun sid kw =>
      if sid = "I1" && kw = "gnn" then
        [{ title := some "GNN Paper"
           authorships := [{ author_id := some "A1", institutions := [{ id := some "I1" }] },
                           { author_id := some "A2", institutions := [{ id := some "I1" }] }] }]
      else []
    authors := fun batch => if batch = "A1|A2" then [authorW, authorChemW] else [] }

/-- The faculty record `get_experts` builds from `authorW` via `apiW`. -/
def facW : Faculty :=
  { name := some "Dr. Graph"
    id := "A1"
    h_index := 42
    specialty := some "Deep Learning"
    top_paper := some "GNN Paper"
    last_known_institution := "UCLA" }

/-- A recent paper matching one student keyword (used in ranker witnesses). -/
def mkPaperW (t ab : String) (y : Int) (c : Nat) : Paper :=
  { title := t, abstract := some ab, year := some y, citationCount := some c, url := "u" }

/-- Four recent papers that all match the keyword "ai": `_rank_papers` keeps
all four, while `run` hands only three to the output payload. -/
def papersW4 : List Paper :=
  [mkPaperW "P1" "about ai" 2020 0, mkPaperW "P2" "about ai" 2021 0,
   mkPaperW "P3" "about ai" 2022 0, mkPaperW "P4" "about ai" 2023 0]

/-- A paper with a missing abstract (excluded by the ranker filter). -/
def paperNoAbsW : Paper :=
  { title := "Ghost Paper", abstract := none, year := some 2023, citationCount := some 3, url := "u" }

/-- A paper from 2010 (excluded by the year filter). -/
def paperOldW : Paper :=
  { title := "Old Paper", abstract := some "ai of the past", year := some 2010,
    citationCount := some 100, url := "u" }

/-- The scored entry the ranker produces for `mkPaperW "P1" "about ai" 2020 0`
against the student keyword "ai". -/
def pScoreW : PaperScore :=
  { title := "P1", year := 2020, url := "u", relevance_score := 1,
    matched_keywords := ["ai"], abstract_snippet := "about ai..." }

/-- The scored entry for `mkPaperW "Deep" "about ai" 2020 50` against the
student keyword "ai": one keyword match plus a 0.5 citation bonus. -/
def pScore50W : PaperScore :=
  { title := "Deep", year := 2020, url := "u", relevance_score := Rat.divInt 3 2,
    matched_keywords := ["ai"], abstract_snippet := "about ai..." }

/-! General lemmas about the helper definitions. -/

theorem insertDescBy_perm {α β : Type} [LinearOrder β] (key : α → β) (a : α) :
    ∀ l : List α, (insertDescBy key a l).Perm (a :: l)
  | [] => List.Perm.refl _
  | b :: bs => by
    unfold insertDescBy
    by_cases h : key b ≤ key a
    · simp [h]
    · simp only [h, if_false]
      exact ((insertDescBy_perm key a bs).cons b).trans (List.Perm.swap a b bs)
theorem sortDescBy_perm {α β : Type} [LinearOrder β] (key : α → β) :
    ∀ l : List α, (sortDescBy key l).Perm l
  | [] => List.Perm.refl _
  | a :: as => by
    unfold sortDescBy
    exact (insertDescBy_perm key a (sortDescBy key as)).trans
      ((sortDescBy_perm key as).cons a)
theorem mem_sortDescBy {α β : Type} [LinearOrder β] {key : α → β} {x : α} {l : List α} :
    x ∈ sortDescBy key l ↔ x ∈ l :=
  (sortDescBy_perm key l).mem_iff
theorem length_sortDescBy {α β : Type} [LinearOrder β] (key : α → β) (l : List α) :
    (sortDescBy key l).length = l.length :=
  (sortDescBy_perm key l).length_eq
theorem pairwise_insertDescBy {α β : Type} [LinearOrder β] (key : α → β) (a : α) :
    ∀ l : List α, l.Pairwise (fun x y => key y ≤ key x) →
      (insertDescBy key a l).Pairwise (fun x y => key y ≤ key x)
  | [], _ => by simp [insertDescBy]
  | b :: bs, hl => by
    unfold insertDescBy
    rcases List.pairwise_cons.mp hl with ⟨hb, hbs⟩
    by_cases h : key b ≤ key a
    · simp only [h, if_true]
      refine List.pairwise_cons.mpr ⟨?_, hl⟩
      intro x hx
      rcases List.mem_cons.mp hx with rfl | hx
      · exact h
      · exact le_trans (hb x hx) h
    · simp only [h, if_false]
      refine List.pairwise_cons.mpr ⟨?_, pairwise_insertDescBy key a bs hbs⟩
      intro x hx
      rcases List.mem_cons.mp ((insertDescBy_perm key a bs).mem_iff.mp hx) with hxa | hx
      · exact hxa ▸ le_of_lt (lt_of_not_le h)
      · exact hb x hx
theorem pairwise_sortDescBy {α β : Type} [LinearOrder β] (key : α → β) :
    ∀ l : List α, (sortDescBy key l).Pairwise (fun x y => key y ≤ key x)
  | [] => List.Pairwise.nil
  | a :: as =>
    pairwise_insertDescBy key a (sortDescBy key as) (pairwise_sortDescBy key as)
theorem filter_insertDescBy {α β : Type} [LinearOrder β] (key : α → β) (v : β) (a : α) :
    ∀ l : List α, (insertDescBy key a l).filter (fun x => decide (key x = v)) =
      if key a = v then a :: l.filter (fun x => decide (key x = v))
      else l.filter (fun x => decide (key x = v))
  | [] => by
    by_cases h : key a = v <;> simp [insertDescBy, List.filter, h]
  | b :: bs => by
    unfold insertDescBy
    by_cases h : key b ≤ key a
    · rw [if_pos h]
      by_cases ha : key a = v <;> simp [List.filter_cons, ha]
    · rw [if_neg h, List.filter_cons, filter_insertDescBy key v a bs]
      by_cases ha : key a = v
      · have hb : ¬ key b = v := fun hbv =>
          absurd (hbv.trans ha.symm) (ne_of_gt (lt_of_not_le h))
        simp [List.filter_cons, ha, hb]
      · by_cases hb : key b = v <;> simp [List.filter_cons, ha, hb]
theorem filter_sortDescBy {α β : Type} [LinearOrder β] (key : α → β) (v : β) :
    ∀ l : List α, (sortDescBy key l).filter (fun x => decide (key x = v)) =
      l.filter (fun x => decide (key x = v))
  | [] => rfl
  | a :: as => by
    unfold sortDescBy
    rw [filter_insertDescBy key v a (sortDescBy key as), filter_sortDescBy key v as]
    by_cases h : key a = v <;> simp [List.filter_cons, h]
theorem addQ_eq (a b : ℚ) : addQ a b = a + b := by
  have h1 : ((a.den : ℚ)) ≠ 0 := Nat.cast_ne_zero.mpr a.den_nz
  have h2 : ((b.den : ℚ)) ≠ 0 := Nat.cast_ne_zero.mpr b.den_nz
  conv_lhs => rw [addQ, Rat.divInt_eq_div]
  conv_rhs => rw [← Rat.num_div_den a, ← Rat.num_div_den b]
  push_cast
  rw [div_add_div _ _ h1 h2]
  ring_nf
theorem mulQ_eq (a b : ℚ) : mulQ a b = a * b := by
  conv_lhs => rw [mulQ, Rat.divInt_eq_div]
  conv_rhs => rw [← Rat.num_div_den a, ← Rat.num_div_den b]
  push_cast
  rw [div_mul_div_comm]
theorem minQ_eq (a b : ℚ) : minQ a b = min a b := (min_def a b).symm
theorem round2_eq (q : ℚ) : round2 q = ((round (q * 100) : ℤ) : ℚ) / 100 := by
  have harg : addQ (mulQ q 100) (Rat.divInt 1 2) = q * 100 + 1 / 2 := by
    rw [addQ_eq, mulQ_eq, Rat.divInt_eq_div]
    norm_num
  have hfl : ∀ x : ℚ, Rat.floor x = ⌊x⌋ := fun x => by
    rw [Rat.floor_def, Rat.floor_def']
  rw [round2, Rat.divInt_eq_div, harg, hfl, round_eq]
  norm_num
theorem round2_eq_self (q : ℚ) (m : ℤ) (h : q * 100 = (m : ℚ)) : round2 q = q := by
  rw [round2_eq, h, round_intCast, ← h, mul_div_assoc]
  norm_num

theorem lookup_cons_self {β : Type} (k : String) (v : β) (ps : List (String × β)) :
    List.lookup k ((k, v) :: ps) = some v := by
  simp [List.lookup]

theorem lookup_cons_ne {β : Type} {j k : String} (hne : j ≠ k) (v : β)
    (ps : List (String × β)) :
    List.lookup j ((k, v) :: ps) = List.lookup j ps := by
  have hb : (j == k) = false := beq_eq_false_iff_ne.mpr hne
  simp [List.lookup, hb]

theorem lookup_upsertPM (k : String) (v : Option String) (j : String) :
    ∀ m : List (String × Option String),
      List.lookup j (upsertPM k v m) = if j = k then some v else List.lookup j m
  | [] => by
    by_cases h : j = k
    · subst h
      simp only [upsertPM]
      rw [lookup_cons_self]
      simp
    · simp only [upsertPM]
      rw [lookup_cons_ne h, if_neg h]
  | (pk, pv) :: ps => by
    simp only [upsertPM]
    by_cases h1 : pk = k
    · rw [if_pos h1]
      by_cases h : j = k
      · subst h
        rw [lookup_cons_self, if_pos rfl]
      · rw [lookup_cons_ne h, if_neg h]
        subst h1
        rw [lookup_cons_ne h]
    · rw [if_neg h1]
      by_cases hjp : j = pk
      · subst hjp
        rw [lookup_cons_self, if_neg h1, lookup_cons_self]
      · rw [lookup_cons_ne hjp, lookup_upsertPM k v j ps]
        by_cases h : j = k
        · rw [if_pos h, if_pos h]
        · rw [if_neg h, if_neg h, lookup_cons_ne hjp]

theorem lookup_pmAuth (school_id : String) (t : Option String) (aid : String)
    (haid : aid ≠ "") (m : List (String × Option String)) (a : Authorship) :
    List.lookup aid (pmAuth school_id t m a) =
      if a.institutions.any (fun i => decide (i.id = some school_id)) &&
          decide (a.author_id = some aid) then
        some t
      else List.lookup aid m := by
  unfold pmAuth
  by_cases hinst : (a.institutions.any (fun i => decide (i.id = some school_id))) = true
  · rw [if_pos hinst]
    cases ha : a.author_id with
    | none => simp [ha]
    | some aid2 =>
      by_cases he : aid2 = aid
      · subst he
        simp only [if_neg haid, hinst, Bool.true_and]
        rw [lookup_upsertPM aid2 t aid2, if_pos rfl]
        simp
      · have hne : aid ≠ aid2 := fun e => he e.symm
        by_cases hz : aid2 = ""
        · simp [hz, he, Ne.symm haid]
        · simp only [if_neg hz]
          rw [lookup_upsertPM aid2 t aid, if_neg hne]
          simp [he]
  · rw [if_neg hinst]
    have hb : (a.institutions.any (fun i => decide (i.id = some school_id))) = false :=
      Bool.not_eq_true _ ▸ eq_false_of_ne_true hinst
    rw [hb, Bool.false_and, if_neg (by simp)]

theorem lookup_foldl_pmAuth (school_id : String) (t : Option String) (aid : String)
    (haid : aid ≠ "") :
    ∀ (as : List Authorship) (m : List (String × Option String)),
      List.lookup aid (as.foldl (pmAuth school_id t) m) =
        if as.any (fun a =>
            a.institutions.any (fun i => decide (i.id = some school_id)) &&
              decide (a.author_id = some aid)) then
          some t
        else List.lookup aid m
  | [], m => by simp
  | a :: rest, m => by
    rw [List.foldl_cons, List.any_cons,
      lookup_foldl_pmAuth school_id t aid haid rest (pmAuth school_id t m a),
      lookup_pmAuth school_id t aid haid m a]
    by_cases hc : (a.institutions.any (fun i => decide (i.id = some school_id)) &&
        decide (a.author_id = some aid)) = true
    · simp [hc]
    · simp [eq_false_of_ne_true hc]

theorem lookup_pmStep (school_id : String) (w : Work) (aid : String) (haid : aid ≠ "")
    (m : List (String × Option String)) :
    List.lookup aid (pmStep school_id m w) =
      if qualifiesFor school_id aid w then some w.title else List.lookup aid m := by
  rw [pmStep, qualifiesFor]
  exact lookup_foldl_pmAuth school_id w.title aid haid w.authorships m

theorem getLast?_or_cons {α : Type} (t : α) (l : List α) (x : Option α) :
    (l.getLast?).or (some t) = ((t :: l).getLast?).or x := by
  match l with
  | [] => rfl
  | u :: us =>
    rw [List.getLast?_cons_cons]
    match h : (u :: us).getLast? with
    | none => exact absurd (List.getLast?_eq_none_iff.mp h) (List.cons_ne_nil u us)
    | some v => rfl

theorem lookup_potentialMap_aux (school_id aid : String) (haid : aid ≠ "") :
    ∀ (works : List Work) (m : List (String × Option String)),
      List.lookup aid (works.foldl (pmStep school_id) m) =
        ((titlesFor school_id aid works).getLast?).or (List.lookup aid m)
  | [], m => by simp [titlesFor]
  | w :: ws, m => by
    rw [List.foldl_cons, lookup_potentialMap_aux school_id aid haid ws,
      lookup_pmStep school_id w aid haid m]
    have hT : titlesFor school_id aid (w :: ws) =
        if qualifiesFor school_id aid w then w.title :: titlesFor school_id aid ws
        else titlesFor school_id aid ws := by
      rw [titlesFor, titlesFor, List.filter_cons]
      by_cases h : qualifiesFor school_id aid w <;> simp [h]
    rw [hT]
    by_cases h : qualifiesFor school_id aid w
    · rw [if_pos h, if_pos h]
      exact getLast?_or_cons w.title (titlesFor school_id aid ws) (List.lookup aid m)
    · rw [if_neg h, if_neg h]

/-- C1: the author-to-title map of the cache-miss path does NOT keep the first
title seen per author: `potential_map[auth_id] = work.get('title')` is an
unconditional dict write, so a later qualifying work overwrites the entry.
Concretely, after two works by author A1 (titles Title1 then Title2, both
qualifying), the recorded title is Title2, not the first-seen Title1. -/
theorem potentialMap_first_seen_cex :
    List.lookup "A1" (potentialMap "I1" [workT1, workT2]) = some (some "Title2") ∧
    workT1.title = some "Title1" ∧ workT2.title = some "Title2" ∧
    qualifiesFor "I1" "A1" workT1 = true ∧ qualifiesFor "I1" "A1" workT2 = true ∧
    some (some "Title2") ≠ some (some "Title1") := by decide

/-- C1 (amended): for every works response and every (truthy) author id, the
title recorded in `potential_map` for that author is the title of the LAST
work in which the author appeared with a school-affiliated authorship; later
works overwrite earlier ones. -/
theorem potentialMap_last_seen (school_id aid : String) (haid : aid ≠ "")
    (works : List Work) :
    List.lookup aid (potentialMap school_id works) =
      (titlesFor school_id aid works).getLast? := by
  rw [potentialMap, lookup_potentialMap_aux school_id aid haid works []]
  match h : (titlesFor school_id aid works).getLast? with
  | none => rfl
  | some v => rfl

/-- C1 (amended) witness: the amended statement evaluated on the two-work
example: the map holds Title2, the title of the last qualifying work. -/
theorem potentialMap_last_seen_witness :
    List.lookup "A1" (potentialMap "I1" [workT1, workT2]) = some (some "Title2") := by
  rw [potentialMap_last_seen "I1" "A1" (by decide) [workT1, workT2]]
  decide

/-- C7: when the papers request fails with a transport/HTTP error, `run` does
not raise: it returns exactly the structured error object with message
"No papers found or API error.", which is also what it returns when the
author has zero papers. -/
theorem run_transport_failure (professor_name : Option String) (now : String)
    (interests skills : List String) :
    run .failed professor_name now interests skills =
        .error "No papers found or API error." ∧
      run (.ok []) professor_name now interests skills =
        .error "No papers found or API error." :=
  ⟨rfl, rfl⟩

/-- C2: `run` does NOT return all ranked papers: it truncates to the top 3
itself.  On four qualifying papers, `_rank_papers` ranks all four but the
output payload carries only three. -/
theorem run_returns_top3_cex :
    (recommendedOf (run (.ok papersW4) (some "Dr. T") "ts" ["ai"] [])).length = 3 ∧
    (rank_papers papersW4 ["ai"] []).length = 4 ∧ (3 : Nat) ≠ 4 := by decide

/-- C2 (amended): for every author with a non-empty papers response, `run`
returns the TOP-3 subset of the ranked, scored papers (the top-N selection is
performed inside `run`, not left to the caller), wrapped with professor name,
timestamp and echoed student profile. -/
theorem run_payload_top3 (fetched : FetchOutcome) (professor_name : Option String)
    (now : String) (interests skills : List String)
    (h : fetchPapersResult fetched ≠ []) :
    run fetched professor_name now interests skills =
      .payload { professor_name := professor_name.getD "Unknown"
                 analysis_timestamp := now
                 skills := skills
                 interests := interests
                 recommended_papers :=
                   (rank_papers (fetchPapersResult fetched) interests skills).take 3 } := by
  rw [run, if_neg (by simpa using h)]

/-- C2 (amended) witness: the amended statement evaluated on the four-paper
example. -/
theorem run_payload_top3_witness :
    run (.ok papersW4) (some "Dr. T") "ts" ["ai"] [] =
      .payload { professor_name := "Dr. T"
                 analysis_timestamp := "ts"
                 skills := []
                 interests := ["ai"]
                 recommended_papers := (rank_papers papersW4 ["ai"] []).take 3 } :=
  (run_payload_top3 (.ok papersW4) (some "Dr. T") "ts" ["ai"] [] (by decide)).trans
    (by decide)

/-- C3: the save/search round trip of the Record Store is broken.  After
saving a record with a realistic (non-numeric) id, the `faculty` row and its
`faculty_search` entry both exist and the indexed text matches the keyword
"Alice" under the tokenizer, yet `search_cache "Alice"` returns []: the join
condition `f.id = fs.rowid` compares the TEXT id against the INTEGER rowid,
which can never be equal for a non-numeric id. -/
theorem search_cache_misses_saved_record :
    search_cache (save_faculty emptyStore [aliceW]) "Alice" = [] ∧
    ftsMatch "Alice" (indexEntry aliceW) = true ∧
    (save_faculty emptyStore [aliceW]).facultyRows.map (fun r => r.2) = [aliceW] ∧
    (save_faculty emptyStore [aliceW]).searchRows.map (fun r => r.2) =
      [indexEntry aliceW] ∧
    sqliteEqIdRowid aliceW.id 1 = false := by decide

/-- C5: whenever the cached records for the skill keyword contain at least one
whose institution case-insensitively contains the school name, `get_experts`
makes no external call and computes its result from the cached records
alone. -/
theorem cache_hit_no_external_calls (api : OpenAlexAPI) (cached : List Faculty)
    (school_name skill_keyword : String) (limit : Nat)
    (hmatch : schoolMatches cached school_name ≠ []) :
    (get_experts api cached school_name skill_keyword limit).externalCalls = 0 ∧
    (get_experts api cached school_name skill_keyword limit).results =
      (sortDescBy (fun f => f.h_index) (schoolMatches cached school_name)).take limit := by
  have hcached : cached ≠ [] := by
    intro e
    exact hmatch (by simp [schoolMatches, e])
  rw [get_experts, if_pos ⟨by simpa using hcached, by simpa using hmatch⟩]
  exact ⟨rfl, rfl⟩

/-- C5 witness: with one matching cached record, no external call is made and
the cached record is returned. -/
theorem cache_hit_no_external_calls_witness :
    (get_experts apiW [cachedFacW] "UCLA" "gnn" 10).externalCalls = 0 ∧
    (get_experts apiW [cachedFacW] "UCLA" "gnn" 10).results = [cachedFacW] := by
  have h := cache_hit_no_external_calls apiW [cachedFacW] "UCLA" "gnn" 10 (by decide)
  exact ⟨h.1, h.2.trans (by decide)⟩

/-- C10: on the cache-hit path `get_experts` returns without calling
`save_faculty` at all, so the store contents are untouched; a save can only
happen on the cache-miss path. -/
theorem cache_hit_no_save (api : OpenAlexAPI) (cached : List Faculty)
    (school_name skill_keyword : String) (limit : Nat)
    (hmatch : schoolMatches cached school_name ≠ []) :
    (get_experts api cached school_name skill_keyword limit).saves = [] := by
  have hcached : cached ≠ [] := by
    intro e
    exact hmatch (by simp [schoolMatches, e])
  rw [get_experts, if_pos ⟨by simpa using hcached, by simpa using hmatch⟩]

/-- C10 witness: the cache-hit example issues no save. -/
theorem cache_hit_no_save_witness :
    (get_experts apiW [cachedFacW] "UCLA" "gnn" 10).saves = [] :=
  cache_hit_no_save apiW [cachedFacW] "UCLA" "gnn" 10 (by decide)

theorem scoreOne_of_filter_pass (kws : List String) (p : Paper) (ab : String) (y : Int)
    (hab : p.abstract = some ab) (hne : ab ≠ "") (hy : p.year = some y)
    (hrecent : ¬ y < 2018) :
    scoreOne kws p =
      if 0 < addQ ((matchedKeywords kws p.title ab).length : ℚ)
          (citationBoost (p.citationCount.getD 0)) then
        some { title := p.title
               year := y
               url := p.url
               relevance_score := round2 (addQ ((matchedKeywords kws p.title ab).length : ℚ)
                 (citationBoost (p.citationCount.getD 0)))
               matched_keywords := matchedKeywords kws p.title ab
               abstract_snippet := takeStr ab 200 ++ "..." }
      else none := by
  unfold scoreOne
  simp only [hab, hy]
  rw [if_neg hne, if_neg hrecent]

theorem scoreOne_of_filter_fail (kws : List String) (p : Paper)
    (h : p.abstract = none ∨ p.abstract = some "" ∨ p.year = none ∨
      ∃ y : Int, p.year = some y ∧ y < 2018) :
    scoreOne kws p = none := by
  rcases h with h | h | h | ⟨y, hy, hlt⟩
  · cases hy : p.year <;> simp [scoreOne, h, hy]
  · cases hy : p.year <;> simp [scoreOne, h, hy]
  · cases hab : p.abstract <;> simp [scoreOne, h, hab]
  · cases hab : p.abstract with
    | none => simp [scoreOne, hab]
    | some ab =>
      by_cases hz : ab = "" <;> simp [scoreOne, hab, hy, hz, hlt]

theorem scoreOne_some_shape (kws : List String) (p : Paper) (e : PaperScore)
    (h : scoreOne kws p = some e) :
    ∃ ab y, p.abstract = some ab ∧ ab ≠ "" ∧ p.year = some y ∧ 2018 ≤ y ∧
      0 < addQ ((matchedKeywords kws p.title ab).length : ℚ)
        (citationBoost (p.citationCount.getD 0)) ∧
      e = { title := p.title
            year := y
            url := p.url
            relevance_score := round2 (addQ ((matchedKeywords kws p.title ab).length : ℚ)
              (citationBoost (p.citationCount.getD 0)))
            matched_keywords := matchedKeywords kws p.title ab
            abstract_snippet := takeStr ab 200 ++ "..." } := by
  cases hab : p.abstract with
  | none =>
    rw [scoreOne_of_filter_fail kws p (Or.inl hab)] at h
    exact absurd h (by simp)
  | some ab =>
    cases hy : p.year with
    | none =>
      rw [scoreOne_of_filter_fail kws p (Or.inr (Or.inr (Or.inl hy)))] at h
      exact absurd h (by simp)
    | some y =>
      by_cases hz : ab = ""
      · rw [scoreOne_of_filter_fail kws p (Or.inr (Or.inl (hz ▸ hab)))] at h
        exact absurd h (by simp)
      · by_cases hlt : y < 2018
        · rw [scoreOne_of_filter_fail kws p (Or.inr (Or.inr (Or.inr ⟨y, hy, hlt⟩)))] at h
          exact absurd h (by simp)
        · rw [scoreOne_of_filter_pass kws p ab y hab hz hy hlt] at h
          by_cases hpos : 0 < addQ ((matchedKeywords kws p.title ab).length : ℚ)
              (citationBoost (p.citationCount.getD 0))
          · rw [if_pos hpos] at h
            exact ⟨ab, y, rfl, hz, rfl, not_lt.mp hlt, hpos, (Option.some_inj.mp h).symm⟩
          · rw [if_neg hpos] at h
            exact absurd h (by simp)

/-- C8: every paper in the output of `_rank_papers` passed the filter: it has
a non-empty abstract and a present year at least 2018; and a paper lacking an
abstract, having an empty abstract, lacking a year, or dated before 2018, is
never scored into the output. -/
theorem ranker_filter_property (papers : List Paper) (interests skills : List String) :
    (∀ e ∈ rank_papers papers interests skills, 2018 ≤ e.year ∧
      ∃ p ∈ papers, ∃ ab, p.abstract = some ab ∧ ab ≠ "" ∧ p.year = some e.year ∧
        scoreOne (targetKeywords interests skills) p = some e) ∧
    (∀ p : Paper, (p.abstract = none ∨ p.abstract = some "" ∨ p.year = none ∨
        (∃ y : Int, p.year = some y ∧ y < 2018)) →
      scoreOne (targetKeywords interests skills) p = none) := by
  constructor
  · intro e he
    rw [rank_papers] at he
    obtain ⟨p, hp, hsc⟩ := List.mem_filterMap.mp (mem_sortDescBy.mp he)
    obtain ⟨ab, y, hab, hz, hy, hge, hpos, hshape⟩ :=
      scoreOne_some_shape (targetKeywords interests skills) p e hsc
    subst hshape
    exact ⟨hge, p, hp, ab, hab, hz, hy, hsc⟩
  · intro p h
    exact scoreOne_of_filter_fail (targetKeywords interests skills) p h

/-- C8 witness: the filter property evaluated on a three-paper example: the
2020 paper is in the output with year at least 2018, and the abstract-less
and the 2010 papers score to nothing. -/
theorem ranker_filter_property_witness :
    2018 ≤ pScoreW.year ∧
    scoreOne (targetKeywords ["ai"] []) paperNoAbsW = none ∧
    scoreOne (targetKeywords ["ai"] []) paperOldW = none := by
  have h := ranker_filter_property [mkPaperW "P1" "about ai" 2020 0, paperNoAbsW, paperOldW]
    ["ai"] []
  exact ⟨(h.1 pScoreW (by decide)).1,
    h.2 paperNoAbsW (Or.inl (by decide)),
    h.2 paperOldW (Or.inr (Or.inr (Or.inr ⟨2010, by decide, by decide⟩)))⟩

theorem citationBoost_eq (c : Nat) : citationBoost c = min ((c : ℚ) / 100) 2 := by
  rw [citationBoost, minQ_eq, Rat.divInt_eq_div]
  push_cast
  rfl

theorem round2_count_bonus (n c : ℕ) :
    round2 ((n : ℚ) + min ((c : ℚ) / 100) 2) = (n : ℚ) + min ((c : ℚ) / 100) 2 := by
  apply round2_eq_self _ (100 * (n : ℤ) + min (c : ℤ) 200)
  have hmin : (min ((c : ℚ) / 100) 2) * 100 = min ((c : ℚ)) 200 := by
    rcases le_total ((c : ℚ) / 100) 2 with h | h
    · have hc : (c : ℚ) ≤ 200 := by
        have := (div_le_iff₀ (by norm_num : (0 : ℚ) < 100)).mp h
        linarith
      rw [min_eq_left h, min_eq_left hc, div_mul_cancel₀ _ (by norm_num : (100 : ℚ) ≠ 0)]
    · have hc : (200 : ℚ) ≤ (c : ℚ) := by
        have := (le_div_iff₀ (by norm_num : (0 : ℚ) < 100)).mp h
        linarith
      rw [min_eq_right h, min_eq_right hc]
      norm_num
  rw [add_mul, hmin]
  push_cast
  ring

/-- C9: for every paper surviving the filter, the final score is the number
of distinct lowercase student keywords occurring as substrings of the
lowercased text (title twice, then abstract), plus the citation bonus
min(citationCount/100, 2.0); rounding to 2 decimals leaves it unchanged; the
matched keywords are exactly the keywords found in the text; and an entry is
in the ranker output exactly when some input paper scores to it with a
strictly positive final score. -/
theorem ranker_scoring (papers : List Paper) (interests skills : List String)
    (p : Paper) (ab : String) (y : Int)
    (hab : p.abstract = some ab) (hne : ab ≠ "") (hy : p.year = some y)
    (hrecent : ¬ y < 2018) :
    ((scoreOne (targetKeywords interests skills) p).isSome ↔
      0 < ((matchedKeywords (targetKeywords interests skills) p.title ab).length : ℚ) +
        min (((p.citationCount.getD 0 : Nat) : ℚ) / 100) 2) ∧
    (∀ e : PaperScore, scoreOne (targetKeywords interests skills) p = some e →
      e.relevance_score =
          ((matchedKeywords (targetKeywords interests skills) p.title ab).length : ℚ) +
            min (((p.citationCount.getD 0 : Nat) : ℚ) / 100) 2 ∧
        e.relevance_score =
          round2 (((matchedKeywords (targetKeywords interests skills) p.title ab).length : ℚ) +
            min (((p.citationCount.getD 0 : Nat) : ℚ) / 100) 2) ∧
        (∀ k : String, k ∈ e.matched_keywords ↔
          k ∈ targetKeywords interests skills ∧
            substrB k (scoringText p.title ab) = true)) ∧
    (∀ e : PaperScore, e ∈ rank_papers papers interests skills ↔
      ∃ q ∈ papers, scoreOne (targetKeywords interests skills) q = some e) := by
  have haddQ : addQ ((matchedKeywords (targetKeywords interests skills) p.title ab).length : ℚ)
      (citationBoost (p.citationCount.getD 0)) =
      ((matchedKeywords (targetKeywords interests skills) p.title ab).length : ℚ) +
        min (((p.citationCount.getD 0 : Nat) : ℚ) / 100) 2 := by
    rw [addQ_eq, citationBoost_eq]
  refine ⟨?_, ?_, ?_⟩
  · rw [scoreOne_of_filter_pass (targetKeywords interests skills) p ab y hab hne hy hrecent,
      haddQ]
    by_cases hpos : 0 < ((matchedKeywords (targetKeywords interests skills) p.title ab).length : ℚ) +
        min (((p.citationCount.getD 0 : Nat) : ℚ) / 100) 2
    · simp [hpos]
    · simp [hpos]
  · intro e he
    rw [scoreOne_of_filter_pass (targetKeywords interests skills) p ab y hab hne hy hrecent,
      haddQ] at he
    by_cases hpos : 0 < ((matchedKeywords (targetKeywords interests skills) p.title ab).length : ℚ) +
        min (((p.citationCount.getD 0 : Nat) : ℚ) / 100) 2
    · rw [if_pos hpos] at he
      have he2 := (Option.some_inj.mp he).symm
      subst he2
      refine ⟨?_, ?_, ?_⟩
      · exact round2_count_bonus _ _
      · rfl
      · intro k
        simp only [matchedKeywords, List.mem_filter]
    · rw [if_neg hpos] at he
      exact absurd he (by simp)
  · intro e
    rw [rank_papers]
    exact mem_sortDescBy.trans List.mem_filterMap

/-- C9 witness: the scoring characterization evaluated on a concrete paper
with one keyword match and 50 citations: final score 1 + 0.5 = 3/2, matched
keyword "ai" recorded, entry present in the output. -/
theorem ranker_scoring_witness :
    pScore50W.relevance_score =
      ((matchedKeywords (targetKeywords ["ai"] []) "Deep" "about ai").length : ℚ) +
        min (((50 : Nat) : ℚ) / 100) 2 ∧
    ("ai" ∈ pScore50W.matched_keywords ↔
      "ai" ∈ targetKeywords ["ai"] [] ∧
        substrB "ai" (scoringText "Deep" "about ai") = true) ∧
    pScore50W ∈ rank_papers [mkPaperW "Deep" "about ai" 2020 50] ["ai"] [] := by
  have h := ranker_scoring [mkPaperW "Deep" "about ai" 2020 50] ["ai"] []
    (mkPaperW "Deep" "about ai" 2020 50) "about ai" 2020 rfl (by decide) rfl (by decide)
  have hsc : scoreOne (targetKeywords ["ai"] []) (mkPaperW "Deep" "about ai" 2020 50) =
      some pScore50W := by decide
  have h2 := h.2.1 pScore50W hsc
  exact ⟨h2.1, h2.2.2 "ai",
    (h.2.2 pScore50W).mpr ⟨mkPaperW "Deep" "about ai" 2020 50, by decide, hsc⟩⟩

theorem get_experts_results_eq (api : OpenAlexAPI) (cached : List Faculty)
    (school_name skill_keyword : String) (limit : Nat) :
    (get_experts api cached school_name skill_keyword limit).results =
      (sortDescBy (fun f => f.h_index)
        (preSortList api cached school_name skill_keyword)).take limit := by
  rw [get_experts, preSortList]
  by_cases hc : cached.isEmpty = false ∧ (schoolMatches cached school_name).isEmpty = false
  · rw [if_pos hc, if_pos hc]
  · rw [if_neg hc, if_neg hc, missPath, verifiedList]
    cases hi : api.institutions school_name with
    | nil => simp [sortDescBy]
    | cons inst rest => rfl

theorem get_experts_saves_eq (api : OpenAlexAPI) (cached : List Faculty)
    (school_name skill_keyword : String) (limit : Nat)
    (hmiss : (schoolMatches cached school_name).isEmpty = true)
    (inst : Institution) (rest : List Institution)
    (hinst : api.institutions school_name = inst :: rest) :
    (get_experts api cached school_name skill_keyword limit).saves =
      [sortDescBy (fun f => f.h_index) (verifiedList api school_name skill_keyword)] := by
  have hc : ¬(cached.isEmpty = false ∧ (schoolMatches cached school_name).isEmpty = false) := by
    intro hand
    rw [hmiss] at hand
    exact absurd hand.2 (by simp)
  rw [get_experts, if_neg hc, missPath, verifiedList, hinst]

/-- C4: the list returned by `get_experts` is always sorted descending by
h_index with at most `limit` elements; the sort is stable (records with equal
h_index keep their pre-sort encounter order); and on a cache miss in which an
institution was resolved, the full sorted verified list (not just the slice)
is the argument of the save issued before returning. -/
theorem discover_sorted_bounded_stable (api : OpenAlexAPI) (cached : List Faculty)
    (school_name skill_keyword : String) (limit : Nat) :
    ((get_experts api cached school_name skill_keyword limit).results.Pairwise
      (fun a b => b.h_index ≤ a.h_index)) ∧
    (get_experts api cached school_name skill_keyword limit).results.length ≤ limit ∧
    ((get_experts api cached school_name skill_keyword limit).results =
      (sortDescBy (fun f => f.h_index)
        (preSortList api cached school_name skill_keyword)).take limit) ∧
    (∀ h : Int, (sortDescBy (fun f => f.h_index)
        (preSortList api cached school_name skill_keyword)).filter
          (fun f => decide (f.h_index = h)) =
      (preSortList api cached school_name skill_keyword).filter
        (fun f => decide (f.h_index = h))) ∧
    ((schoolMatches cached school_name).isEmpty = true →
      ∀ inst rest, api.institutions school_name = inst :: rest →
        (get_experts api cached school_name skill_keyword limit).saves =
          [sortDescBy (fun f => f.h_index)
            (verifiedList api school_name skill_keyword)]) := by
  refine ⟨?_, ?_, get_experts_results_eq api cached school_name skill_keyword limit,
    fun h => filter_sortDescBy (fun f : Faculty => f.h_index) h _,
    fun hmiss inst rest hinst =>
      get_experts_saves_eq api cached school_name skill_keyword limit hmiss inst rest hinst⟩
  · rw [get_experts_results_eq api cached school_name skill_keyword limit]
    exact List.Pairwise.sublist (List.take_sublist _ _)
      (pairwise_sortDescBy (fun f : Faculty => f.h_index) _)
  · rw [get_experts_results_eq api cached school_name skill_keyword limit]
    exact List.length_take_le _ _

/-- C4 witness: the claim evaluated on a one-author cache-miss example: the
single verified record is returned, bounded by the limit, and the full sorted
list is what gets saved. -/
theorem discover_sorted_bounded_stable_witness :
    (get_experts apiW [] "UCLA" "gnn" 10).results = [facW] ∧
    (get_experts apiW [] "UCLA" "gnn" 10).results.length ≤ 10 ∧
    (get_experts apiW [] "UCLA" "gnn" 10).saves =
      [sortDescBy (fun f => f.h_index) (verifiedList apiW "UCLA" "gnn")] := by
  have h := discover_sorted_bounded_stable apiW [] "UCLA" "gnn" 10
  exact ⟨(h.2.2.1).trans (by decide), h.2.1,
    h.2.2.2.2 (by decide) { id := "I1", display_name := "UCLA" } [] (by decide)⟩

theorem verifyAuthor_some_conditions (school_id school_display : String)
    (pm : List (String × Option String)) (a : Author) (f : Faculty)
    (h : verifyAuthor school_id school_display pm a = some f) :
    (a.last_known_institutions.getD []).any
        (fun i => decide (i.id = some school_id)) = true ∧
      ((a.topics.getD []).take 3).any
        (fun t => decide (t.field_display_name = some "Computer Science")) = true := by
  simp only [verifyAuthor] at h
  cases ha : a.id with
  | none =>
    rw [ha] at h
    dsimp only at h
    exact absurd h (by simp)
  | some aid =>
    rw [ha] at h
    dsimp only at h
    cases hl : List.lookup aid pm with
    | none =>
      rw [hl] at h
      dsimp only at h
      exact absurd h (by simp)
    | some title =>
      rw [hl] at h
      dsimp only at h
      by_cases hc : ((a.last_known_institutions.getD []).any
          (fun i => decide (i.id = some school_id)) &&
          ((a.topics.getD []).take 3).any
            (fun t => decide (t.field_display_name = some "Computer Science"))) = true
      · exact Bool.and_eq_true_iff.mp hc
      · rw [if_neg hc] at h
        exact absurd h (by simp)

theorem verifyAuthor_none_of_fail (school_id school_display : String)
    (pm : List (String × Option String)) (a : Author)
    (h : (a.last_known_institutions.getD []).any
        (fun i => decide (i.id = some school_id)) = false ∨
      ((a.topics.getD []).take 3).any
        (fun t => decide (t.field_display_name = some "Computer Science")) = false) :
    verifyAuthor school_id school_display pm a = none := by
  have hc : ((a.last_known_institutions.getD []).any
      (fun i => decide (i.id = some school_id)) &&
      ((a.topics.getD []).take 3).any
        (fun t => decide (t.field_display_name = some "Computer Science"))) = false := by
    rcases h with h | h <;> simp [h]
  simp only [verifyAuthor]
  cases a.id with
  | none => rfl
  | some aid =>
    dsimp only
    cases List.lookup aid pm with
    | none => rfl
    | some title => simp [hc]

/-- C6: on the cache-miss path with a resolved institution, every returned
record comes from a hydrated author whose last known institutions contain the
resolved institution id and whose first three topics include one with field
display name exactly "Computer Science"; and every hydrated author failing
either condition is dropped by verification. -/
theorem discover_verification_filter (api : OpenAlexAPI) (cached : List Faculty)
    (school_name skill_keyword : String) (limit : Nat)
    (hmiss : (schoolMatches cached school_name).isEmpty = true)
    (inst : Institution) (rest : List Institution)
    (hinst : api.institutions school_name = inst :: rest) :
    (∀ f ∈ (get_experts api cached school_name skill_keyword limit).results,
      ∃ a ∈ fetchedAuthors api
          (authIds (potentialMap inst.id (api.works inst.id skill_keyword))),
        (a.last_known_institutions.getD []).any
            (fun i => decide (i.id = some inst.id)) = true ∧
          ((a.topics.getD []).take 3).any
            (fun t => decide (t.field_display_name = some "Computer Science")) = true ∧
          verifyAuthor inst.id inst.display_name
            (potentialMap inst.id (api.works inst.id skill_keyword)) a = some f) ∧
    (∀ a ∈ fetchedAuthors api
        (authIds (potentialMap inst.id (api.works inst.id skill_keyword))),
      ((a.last_known_institutions.getD []).any
          (fun i => decide (i.id = some inst.id)) = false ∨
        ((a.topics.getD []).take 3).any
          (fun t => decide (t.field_display_name = some "Computer Science")) = false) →
      verifyAuthor inst.id inst.display_name
        (potentialMap inst.id (api.works inst.id skill_keyword)) a = none) := by
  have hc : ¬(cached.isEmpty = false ∧ (schoolMatches cached school_name).isEmpty = false) := by
    intro hand
    rw [hmiss] at hand
    exact absurd hand.2 (by simp)
  have hpre : preSortList api cached school_name skill_keyword =
      (fetchedAuthors api
        (authIds (potentialMap inst.id (api.works inst.id skill_keyword)))).filterMap
        (verifyAuthor inst.id inst.display_name
          (potentialMap inst.id (api.works inst.id skill_keyword))) := by
    rw [preSortList, if_neg hc, verifiedList, hinst]
  constructor
  · intro f hf
    rw [get_experts_results_eq api cached school_name skill_keyword limit] at hf
    have hf2 := mem_sortDescBy.mp (List.Sublist.mem hf (List.take_sublist _ _))
    rw [hpre] at hf2
    obtain ⟨a, ha, hva⟩ := List.mem_filterMap.mp hf2
    obtain ⟨h1, h2⟩ := verifyAuthor_some_conditions inst.id inst.display_name _ a f hva
    exact ⟨a, ha, h1, h2, hva⟩
  · intro a _ h
    exact verifyAuthor_none_of_fail inst.id inst.display_name _ a h

/-- C6 witness: the verification filter evaluated on the two-author example:
the Computer Science author yields the returned record, the chemistry author
is dropped. -/
theorem discover_verification_filter_witness :
    (∃ a ∈ fetchedAuthors apiW (authIds (potentialMap "I1" (apiW.works "I1" "gnn"))),
      (a.last_known_institutions.getD []).any
          (fun i => decide (i.id = some "I1")) = true ∧
        ((a.topics.getD []).take 3).any
          (fun t => decide (t.field_display_name = some "Computer Science")) = true ∧
        verifyAuthor "I1" "UCLA" (potentialMap "I1" (apiW.works "I1" "gnn")) a =
          some facW) ∧
    verifyAuthor "I1" "UCLA" (potentialMap "I1" (apiW.works "I1" "gnn")) authorChemW =
      none := by
  have h := discover_verification_filter apiW [] "UCLA" "gnn" 10 (by decide)
    { id := "I1", display_name := "UCLA" } [] (by decide)
  exact ⟨h.1 facW (by decide), h.2 authorChemW (by decide) (Or.inr (by decide))⟩
